import Mathlib

/-!
Verification of the commission-reconciliation program
(run_calc_commission_BRS.py, with run_calc_comission_BRS.py as an earlier
near-identical variant).  The Python source is shallowly embedded: cell
values are strings or exact rationals (Python floats are idealised as ℚ,
and the two-decimal rounding is modelled as round-half-up, the tie
convention being left open by the design notes), dictionaries are
association lists, exceptions are modelled with Option, and the
filesystem effects of a run are returned as data.  String helpers are
written by structural recursion on the character list so that every
definition evaluates inside the kernel.
-/

/-- A cell of a tabular input file: either text or a number. -/
inductive CellValue where
  | str (s : String)
  | num (q : ℚ)
deriving DecidableEq

/-- Characters of a string with leading whitespace removed. -/
def dropWS (l : List Char) : List Char := l.dropWhile Char.isWhitespace

/-- Characters of a string with leading and trailing whitespace removed. -/
def trimChars (l : List Char) : List Char := (dropWS (dropWS l.reverse).reverse)

/-- Python str.strip with no argument: remove surrounding whitespace. -/
def pyStrip (s : String) : String := String.mk (trimChars s.data)

/-- Uppercases one character; models Python str.upper on the Latin
alphabet, which is the alphabet of every card-network code in play. -/
def upperChar (c : Char) : Char :=
  if 'a' ≤ c && c ≤ 'z' then Char.ofNat (c.toNat - 32) else c

/-- Python str.upper, characterwise. -/
def pyUpper (s : String) : String := String.mk (s.data.map upperChar)

/-- Value of a list of decimal digit characters read left to right. -/
def digitsVal (l : List Char) : ℕ :=
  l.foldl (fun n c => n * 10 + (c.toNat - 48)) 0

/-- Parses an unsigned decimal literal: digits, optionally followed by a
point and digits, with at least one digit present.  Models the accepting
core of the Python float constructor on cleaned text. -/
def parseUnsigned (cs : List Char) : Option ℚ :=
  let intPart := cs.takeWhile Char.isDigit
  let rest := cs.dropWhile Char.isDigit
  match rest with
  | [] => if intPart.isEmpty then none else some (digitsVal intPart)
  | '.' :: frac =>
      if frac.all Char.isDigit && !(intPart.isEmpty && frac.isEmpty) then
        some ((digitsVal intPart : ℚ) + (digitsVal frac : ℚ) / (10 : ℚ) ^ frac.length)
      else none
  | _ => none

/-- Parses a signed decimal literal, allowing surrounding whitespace,
as the Python float constructor does on a string. -/
def parseFloat (s : String) : Option ℚ :=
  match trimChars s.data with
  | '-' :: rest => (parseUnsigned rest).map (fun q => -q)
  | '+' :: rest => parseUnsigned rest
  | cs => parseUnsigned cs

/-- The Python float constructor applied to a raw cell: a number passes
through unchanged, text is parsed with no cleanup.  none models the
ValueError that float raises on invalid text. -/
def pyFloat : CellValue → Option ℚ
  | .num q => some q
  | .str s => parseFloat s

/-- Cleanup performed by convert_amount on text: remove spaces (thousands
separators) and turn commas into decimal points. -/
def cleanAmountStr (s : String) : String :=
  String.mk ((s.data.filter (fun c => c ≠ ' ')).map
    (fun c => if c = ',' then '.' else c))

/-- convert_amount: converts an amount cell to a number, cleaning textual
input first; numeric input passes through unchanged.  none models the
ValueError raised when the cleaned text is not a valid number. -/
def convert_amount : CellValue → Option ℚ
  | .num q => some q
  | .str s => parseFloat (cleanAmountStr s)

/-- Rounding to two decimal places, as round(x, 2) is used by the source;
ties are resolved upward, a convention the design notes leave open. -/
def round2 (x : ℚ) : ℚ := ((⌊x * 100 + 1 / 2⌋ : ℤ) : ℚ) / 100

/-- Python str() on a cell; on a numeric cell the exact formatting is
irrelevant to every property proved below. -/
def cellToString : CellValue → String
  | .str s => s
  | .num q => toString q

/-- The normalisation str(cell).strip().upper() applied to card-network
codes both by the loader and by the fee calculator. -/
def normCode (v : CellValue) : String := pyUpper (pyStrip (cellToString v))

/-- A rate table: a Python dict from card-network code to rate, embedded
as an association list whose lookup returns the first match. -/
abbrev RateTable := List (String × ℚ)

/-- Assignment d[k] = v on a Python dict: overwrite the existing entry
for k in place, or append a new one. -/
def dictSet : RateTable → String → ℚ → RateTable
  | [], k, v => [(k, v)]
  | (k₁, v₁) :: t, k, v =>
      if k₁ = k then (k, v) :: t else (k₁, v₁) :: dictSet t k v

/-- d.setdefault(k, v) on a Python dict. -/
def dictSetdefault (t : RateTable) (k : String) (v : ℚ) : RateTable :=
  match t.lookup k with
  | some _ => t
  | none => t ++ [(k, v)]

/-- The hard-coded built-in rate table of run_calc_commission_BRS.py. -/
def default_rates : RateTable :=
  [("MIR", 142 / 10000), ("MC", 2 / 100), ("VISA", 165 / 10000),
   ("CUP", 165 / 10000), ("AMEX", 3 / 100), ("DEFAULT", 0)]

/-- The rate-configuration resource setup.xlsx as seen by the loader:
absent, or present with its data rows, each row giving the card-type
cell and the commission-rate cell. -/
inductive SetupFile where
  | missing
  | present (rows : List (CellValue × CellValue))

/-- The loading loop of load_commission_rates: normalises each card-type
cell (str, strip, upper) and coerces each rate cell with float; the first
rate cell that float rejects aborts the whole loop (none models the
exception escaping to the surrounding handler). -/
def buildRates : List (CellValue × CellValue) → RateTable → Option RateTable
  | [], acc => some acc
  | (card, rate) :: rest, acc =>
      match pyFloat rate with
      | none => none
      | some r => buildRates rest (dictSet acc (normCode card) r)

/-- load_commission_rates: builds the rate table from setup.xlsx when it
exists, is non-empty and every row parses, falling back to the built-in
table otherwise, and guaranteeing a DEFAULT entry. -/
def load_commission_rates (setup : SetupFile) : RateTable :=
  match setup with
  | .missing => default_rates
  | .present rows =>
      if rows.isEmpty then default_rates
      else
        match buildRates rows [] with
        | none => default_rates
        | some t => dictSetdefault t "DEFAULT" 0

/-- commission_rates.get(card, commission_rates[DEFAULT]): Python
evaluates the default argument first, so a table without a DEFAULT key
raises (none) no matter the card; otherwise the card resolves to its own
entry or to the DEFAULT rate. -/
def rates_get (t : RateTable) (code : String) : Option ℚ :=
  match t.lookup "DEFAULT" with
  | none => none
  | some d => some ((t.lookup code).getD d)

/-- The purchase marker against which the TYPE cell is compared. -/
def purchaseMarker : CellValue := .str "ПОКУПКА"

/-- calculate_commission: zero for any row whose TYPE cell is not exactly
the purchase marker; for a purchase row, normalise the code, convert the
amount, look the rate up with DEFAULT fallback and round the product to
two decimals, any exception along the way degrading to zero. -/
def calculate_commission (rowType amountCell codeCell : CellValue)
    (commission_rates : RateTable) : ℚ :=
  if rowType ≠ purchaseMarker then 0
  else
    match convert_amount amountCell, rates_get commission_rates (normCode codeCell) with
    | some amount, some rate => round2 (amount * rate)
    | _, _ => 0

/-- One record of an input file, restricted to the four required columns
(the source passes any further columns through untouched). -/
structure RawRow where
  TYPE : CellValue
  AMOUNT : CellValue
  COMMISSION : CellValue
  PMT_SYSTEM_CODE : CellValue
deriving DecidableEq

/-- A record after process_file has converted the AMOUNT and COMMISSION
columns in place with convert_amount. -/
structure ConvRow where
  TYPE : CellValue
  AMOUNT : ℚ
  COMMISSION : ℚ
  PMT_SYSTEM_CODE : CellValue
deriving DecidableEq

/-- The in-place conversion of one record: both the AMOUNT and the
COMMISSION cell must convert; a failure of either is the exception that
the column-wise apply raises for the whole file. -/
def convertRow (r : RawRow) : Option ConvRow :=
  match convert_amount r.AMOUNT, convert_amount r.COMMISSION with
  | some a, some c => some ⟨r.TYPE, a, c, r.PMT_SYSTEM_CODE⟩
  | _, _ => none

/-- Column conversion over a whole file; none models the exception that
aborts process_file when any cell fails to convert. -/
def convertRows (rs : List RawRow) : Option (List ConvRow) :=
  rs.mapM convertRow

/-- A record with the two derived columns appended. -/
structure ProcRow where
  row : ConvRow
  fee : ℚ
  delta : ℚ
deriving DecidableEq

/-- The two derived columns of one record: the computed fee, and the
delta COMMISSION minus fee for purchase rows (0.0 otherwise), the whole
delta column being rounded to two decimals afterwards. -/
def annotateRow (commission_rates : RateTable) (r : ConvRow) : ProcRow :=
  let fee := calculate_commission r.TYPE (.num r.AMOUNT) r.PMT_SYSTEM_CODE
    commission_rates
  let d := if r.TYPE = purchaseMarker then r.COMMISSION - fee else 0
  ⟨r, fee, round2 d⟩

/-- A discrepancy row of the aggregate report: an annotated record tagged
with the base name of its originating file. -/
structure Discrepancy where
  row : ProcRow
  file : String
deriving DecidableEq

/-- One input file as process_file sees it: its base name, its parsed
content (none when no encoding or format attempt succeeds), the column
set of the parsed table, and whether writing the annotated output
succeeds (the write is an external effect that can raise). -/
structure InputFile where
  name : String
  content : Option (List RawRow)
  columns : List String
  writeOk : Bool

/-- The four required columns checked by process_file. -/
def required_columns : List String :=
  ["TYPE", "AMOUNT", "COMMISSION", "PMT_SYSTEM_CODE"]

/-- The required columns absent from the file's column set. -/
def missing_columns (f : InputFile) : List String :=
  required_columns.filter (fun c => !(f.columns.contains c))

/-- process_file: reads the file, checks the required columns, converts
the numeric columns, appends the derived columns, appends the non-zero
delta rows (tagged with the file name) to the accumulated results, and
writes the annotated output.  Every failure is caught: the accumulator
as it stands at the moment of the failure is returned, and no annotated
output (second component none) is produced.  A failure of the final
write happens after the accumulator was already extended. -/
def process_file (commission_rates : RateTable) (results : List Discrepancy)
    (f : InputFile) : List Discrepancy × Option (List ProcRow) :=
  match f.content with
  | none => (results, none)
  | some rows =>
      if !(missing_columns f).isEmpty then (results, none)
      else
        match convertRows rows with
        | none => (results, none)
        | some crows =>
            let proc := crows.map (annotateRow commission_rates)
            let disc := (proc.filter (fun p => decide (p.delta ≠ 0))).map
              (fun p => Discrepancy.mk p f.name)
            let results₁ := results ++ disc
            if f.writeOk then (results₁, some proc) else (results₁, none)

/-- The fully annotated table of a file, when processing reaches the
point where it exists. -/
def fileTable (commission_rates : RateTable) (f : InputFile) :
    Option (List ProcRow) :=
  match f.content with
  | none => none
  | some rows =>
      if !(missing_columns f).isEmpty then none
      else
        match convertRows rows with
        | none => none
        | some crows => some (crows.map (annotateRow commission_rates))

/-- The discrepancy contribution of one file: its annotated rows with
non-zero delta, tagged with the file name; empty when the file fails
before its table exists. -/
def fileDiscrepancies (commission_rates : RateTable) (f : InputFile) :
    List Discrepancy :=
  match fileTable commission_rates f with
  | none => []
  | some proc =>
      (proc.filter (fun p => decide (p.delta ≠ 0))).map
        (fun p => Discrepancy.mk p f.name)

/-- The processing loop of main: the discrepancy accumulator threaded
through process_file over the files in discovery order. -/
def run_results (commission_rates : RateTable) (acc : List Discrepancy)
    (files : List InputFile) : List Discrepancy :=
  files.foldl (fun res f => (process_file commission_rates res f).1) acc

/-- The externally visible outcome of a run: the aggregate report written
to results.xlsx (none when none is written) and the names of the
annotated output files written. -/
structure RunOutcome where
  report : Option (List Discrepancy)
  annotated : List String
deriving DecidableEq

/-- The step of the main loop, also collecting the annotated-output
file names. -/
def mainStep (commission_rates : RateTable)
    (acc : List Discrepancy × List String) (f : InputFile) :
    List Discrepancy × List String :=
  match process_file commission_rates acc.1 f with
  | (res, some _) => (res, acc.2 ++ [f.name ++ "_processed.xlsx"])
  | (res, none) => (res, acc.2)

/-- main: loads the rates, returns early when no input file was
discovered, otherwise processes every file in order and writes the
aggregate report exactly when the accumulated discrepancy list is
non-empty. -/
def main_run (setup : SetupFile) (files : List InputFile) : RunOutcome :=
  let commission_rates := load_commission_rates setup
  if files.isEmpty then { report := none, annotated := [] }
  else
    let r := files.foldl (mainStep commission_rates) ([], [])
    { report := if r.1.isEmpty then none else some r.1, annotated := r.2 }

/-! ## General lemmas about the embedded program -/

theorem round2_zero : round2 0 = 0 := by norm_num [round2]

theorem annotateRow_not_purchase (commission_rates : RateTable) (r : ConvRow)
    (h : r.TYPE ≠ purchaseMarker) :
    annotateRow commission_rates r = ⟨r, 0, 0⟩ := by
  simp [annotateRow, calculate_commission, h, round2_zero]

theorem annotateRow_purchase (commission_rates : RateTable) (r : ConvRow)
    (rate : ℚ) (h : r.TYPE = purchaseMarker)
    (hr : rates_get commission_rates (normCode r.PMT_SYSTEM_CODE) = some rate) :
    annotateRow commission_rates r =
      ⟨r, round2 (r.AMOUNT * rate),
        round2 (r.COMMISSION - round2 (r.AMOUNT * rate))⟩ := by
  simp [annotateRow, calculate_commission, h, hr, convert_amount]

theorem convertRow_elim (raw : RawRow) (r : ConvRow)
    (h : convertRow raw = some r) :
    r.TYPE = raw.TYPE ∧ r.PMT_SYSTEM_CODE = raw.PMT_SYSTEM_CODE ∧
      convert_amount raw.AMOUNT = some r.AMOUNT ∧
      convert_amount raw.COMMISSION = some r.COMMISSION := by
  unfold convertRow at h
  rcases ha : convert_amount raw.AMOUNT with _ | a <;> rw [ha] at h
  · exact absurd h (by simp)
  rcases hc : convert_amount raw.COMMISSION with _ | c <;> rw [hc] at h
  · exact absurd h (by simp)
  cases h
  exact ⟨rfl, rfl, rfl, rfl⟩

theorem process_file_fst (commission_rates : RateTable)
    (results : List Discrepancy) (f : InputFile) :
    (process_file commission_rates results f).1 =
      results ++ fileDiscrepancies commission_rates f := by
  unfold process_file fileDiscrepancies fileTable
  rcases f.content with _ | rows
  · simp
  · rcases hm : !(missing_columns f).isEmpty with _ | _
    · rcases hc : convertRows rows with _ | crows
      · simp [hm, hc]
      · rcases hw : f.writeOk with _ | _ <;> simp [hm, hc, hw]
    · simp [hm]

theorem run_results_eq (commission_rates : RateTable)
    (acc : List Discrepancy) (files : List InputFile) :
    run_results commission_rates acc files =
      acc ++ (files.map (fileDiscrepancies commission_rates)).flatten := by
  induction files generalizing acc with
  | nil => simp [run_results]
  | cons f rest ih =>
      show run_results commission_rates
        ((process_file commission_rates acc f).1) rest = _
      rw [ih, process_file_fst]
      simp

theorem mainStep_fst (commission_rates : RateTable) (files : List InputFile)
    (acc : List Discrepancy) (outs : List String) :
    (files.foldl (mainStep commission_rates) (acc, outs)).1 =
      run_results commission_rates acc files := by
  induction files generalizing acc outs with
  | nil => simp [run_results]
  | cons f rest ih =>
      show (rest.foldl (mainStep commission_rates)
        (mainStep commission_rates (acc, outs) f)).1 = _
      unfold mainStep
      rcases hp : process_file commission_rates acc f with ⟨res, _ | t⟩
      · show (rest.foldl (mainStep commission_rates) (res, outs)).1 = _
        rw [ih]
        show _ = run_results commission_rates
          ((process_file commission_rates acc f).1) rest
        rw [hp]
      · show (rest.foldl (mainStep commission_rates)
          (res, outs ++ [f.name ++ "_processed.xlsx"])).1 = _
        rw [ih]
        show _ = run_results commission_rates
          ((process_file commission_rates acc f).1) rest
        rw [hp]

theorem buildRates_failure (rows : List (CellValue × CellValue))
    (acc : RateTable) (h : ∃ p ∈ rows, pyFloat p.2 = none) :
    buildRates rows acc = none := by
  induction rows generalizing acc with
  | nil => simp at h
  | cons p rest ih =>
      rcases h with ⟨q, hq, hnone⟩
      rcases List.mem_cons.1 hq with h₁ | h₁
      · subst h₁
        unfold buildRates
        rw [hnone]
      · unfold buildRates
        rcases hp : pyFloat p.2 with _ | r
        · rfl
        · exact ih _ ⟨q, h₁, hnone⟩

theorem lookup_append_self (t : RateTable) (k : String) (v : ℚ)
    (h : t.lookup k = none) : (t ++ [(k, v)]).lookup k = some v := by
  induction t with
  | nil => simp [List.lookup]
  | cons p rest ih =>
      rcases p with ⟨k₁, v₁⟩
      simp only [List.cons_append, List.lookup] at h ⊢
      rcases hb : (k == k₁) with _ | _
      · simp only [hb] at h ⊢
        exact ih h
      · simp only [hb] at h
        exact Option.noConfusion h

theorem dictSetdefault_lookup (t : RateTable) (k : String) (v : ℚ) :
    ∃ d, (dictSetdefault t k v).lookup k = some d := by
  unfold dictSetdefault
  rcases h : t.lookup k with _ | d
  · exact ⟨v, lookup_append_self t k v h⟩
  · exact ⟨d, h⟩

theorem load_lookup_DEFAULT (setup : SetupFile) :
    ∃ d, (load_commission_rates setup).lookup "DEFAULT" = some d := by
  unfold load_commission_rates
  rcases setup with _ | rows
  · exact ⟨0, rfl⟩
  · rcases he : rows.isEmpty with _ | _
    · rcases hb : buildRates rows [] with _ | t
      · simp only [he, hb]
        exact ⟨0, rfl⟩
      · simp only [he, hb]
        exact dictSetdefault_lookup t "DEFAULT" 0
    · simp only [he]
      exact ⟨0, rfl⟩

theorem process_file_readFail (commission_rates : RateTable)
    (results : List Discrepancy) (f : InputFile) (h : f.content = none) :
    process_file commission_rates results f = (results, none) := by
  simp [process_file, h]

theorem process_file_schemaFail (commission_rates : RateTable)
    (results : List Discrepancy) (f : InputFile) (rows : List RawRow)
    (h1 : f.content = some rows) (h2 : missing_columns f ≠ []) :
    process_file commission_rates results f = (results, none) := by
  have hm : (missing_columns f).isEmpty = false := by
    rcases hc : missing_columns f with _ | ⟨a, t⟩
    · exact absurd hc h2
    · rfl
  simp [process_file, h1, hm]

theorem process_file_convFail (commission_rates : RateTable)
    (results : List Discrepancy) (f : InputFile) (rows : List RawRow)
    (h1 : f.content = some rows) (h2 : convertRows rows = none) :
    process_file commission_rates results f = (results, none) := by
  cases hm : (missing_columns f).isEmpty <;> simp [process_file, h1, h2, hm]

theorem process_file_writeFail (commission_rates : RateTable)
    (results : List Discrepancy) (f : InputFile) (h : f.writeOk = false) :
    process_file commission_rates results f =
      (results ++ fileDiscrepancies commission_rates f, none) := by
  unfold process_file fileDiscrepancies fileTable
  rcases f.content with _ | rows
  · simp
  · cases hm : !(missing_columns f).isEmpty
    · rcases hc : convertRows rows with _ | crows
      · simp [hm, hc]
      · simp [hm, hc, h]
    · simp [hm]

/-! ## Concrete rows and files used in the witnesses and counterexamples.
The rate table in play is the built-in one, whose MIR rate is 0.0142, as
in the spec scenarios: a purchase of 1000 should carry a fee of 14.20. -/

/-- A clean purchase row whose recorded fee 15 is off by 0.80. -/
def rowGood : RawRow := ⟨.str "ПОКУПКА", .num 1000, .num 15, .str "MIR"⟩

/-- rowGood after column conversion. -/
def convGood : ConvRow := ⟨.str "ПОКУПКА", 1000, 15, .str "MIR"⟩

/-- rowGood annotated against the built-in table. -/
def procGood : ProcRow := annotateRow default_rates convGood

/-- A refund row, exempt from fee verification. -/
def rowRefund : RawRow := ⟨.str "возврат", .num 500, .num 5, .str "VISA"⟩

/-- rowRefund after column conversion. -/
def convRefund : ConvRow := ⟨.str "возврат", 500, 5, .str "VISA"⟩

/-- A purchase row whose amount cell is not a number. -/
def rowBad : RawRow := ⟨.str "ПОКУПКА", .str "abc", .num 1, .str "MIR"⟩

/-- A healthy one-row file. -/
def fileC2 : InputFile := ⟨"c2", some [rowGood], required_columns, true⟩

/-- A file holding one good row and one row with an unparseable amount. -/
def fileC3 : InputFile := ⟨"c3", some [rowGood, rowBad], required_columns, true⟩

/-- A healthy one-row file whose annotated-output write fails. -/
def fileC4 : InputFile := ⟨"c4", some [rowGood], required_columns, false⟩

/-- A file that no encoding or format attempt can read. -/
def fileNoRead : InputFile := ⟨"nr", none, [], true⟩

/-- A readable file missing three of the four required columns. -/
def fileNoCols : InputFile := ⟨"nc", some [], ["TYPE"], true⟩

theorem procGood_eval : procGood = ⟨convGood, 142 / 10, 8 / 10⟩ := by
  have h := annotateRow_purchase default_rates convGood (142 / 10000) rfl rfl
  rw [procGood, h]
  simp only [convGood, ProcRow.mk.injEq]
  norm_num [round2]

/-! ## The claims -/

/-- C1: for every row processed by process_file (that is, whose numeric
cells converted), a non-purchase row gets computed fee 0 and delta 0
regardless of its amount and card-network cells, and a purchase row gets
computed fee round2 of the normalised amount times the rate of the
trimmed and uppercased card-network code, and delta equal to the recorded
fee minus the computed fee, rounded to two decimals. -/
theorem claim_C1 (commission_rates : RateTable) (raw : RawRow) (r : ConvRow)
    (h : convertRow raw = some r) :
    (raw.TYPE ≠ purchaseMarker →
      (annotateRow commission_rates r).fee = 0 ∧
      (annotateRow commission_rates r).delta = 0) ∧
    (∀ rate, raw.TYPE = purchaseMarker →
      rates_get commission_rates (normCode raw.PMT_SYSTEM_CODE) = some rate →
      convert_amount raw.AMOUNT = some r.AMOUNT ∧
      convert_amount raw.COMMISSION = some r.COMMISSION ∧
      (annotateRow commission_rates r).fee = round2 (r.AMOUNT * rate) ∧
      (annotateRow commission_rates r).delta =
        round2 (r.COMMISSION - (annotateRow commission_rates r).fee)) := by
  obtain ⟨ht, hcode, ham, hcm⟩ := convertRow_elim raw r h
  constructor
  · intro hnp
    rw [annotateRow_not_purchase commission_rates r (ht ▸ hnp)]
    exact ⟨rfl, rfl⟩
  · intro rate hp hr
    have h1 := annotateRow_purchase commission_rates r rate (ht.symm ▸ hp)
      (by rw [hcode]; exact hr)
    rw [h1]
    exact ⟨ham, hcm, rfl, rfl⟩

/-- Witness for C1: the refund row of scenario D gets fee 0 and delta 0,
and the purchase row of scenario A and B (amount 1000, MIR, recorded fee
15) gets fee round2(1000 times 0.0142) and delta 15 minus that fee. -/
theorem claim_C1_witness :
    ((annotateRow default_rates convRefund).fee = 0 ∧
      (annotateRow default_rates convRefund).delta = 0) ∧
    ((annotateRow default_rates convGood).fee = round2 (1000 * (142 / 10000)) ∧
      (annotateRow default_rates convGood).delta =
        round2 (15 - (annotateRow default_rates convGood).fee)) := by
  have h1 := (claim_C1 default_rates rowRefund convRefund rfl).1 (by decide)
  have h2 := (claim_C1 default_rates rowGood convGood rfl).2 (142 / 10000) rfl rfl
  exact ⟨h1, h2.2.2⟩

/-- C2: a row enters the discrepancy set of its file exactly when its
rounded delta is non-zero, and the aggregate collection is the
concatenation of the per-file discrepancy sets in processing order, so
its row count is the sum of the per-file discrepancy counts. -/
theorem claim_C2 (commission_rates : RateTable) (files : List InputFile) :
    run_results commission_rates [] files =
      (files.map (fileDiscrepancies commission_rates)).flatten ∧
    (run_results commission_rates [] files).length =
      (files.map (fun f => (fileDiscrepancies commission_rates f).length)).sum ∧
    ∀ f proc p, fileTable commission_rates f = some proc → p ∈ proc →
      (Discrepancy.mk p f.name ∈ fileDiscrepancies commission_rates f ↔
        p.delta ≠ 0) := by
  have he := run_results_eq commission_rates [] files
  simp only [List.nil_append] at he
  refine ⟨he, ?_, ?_⟩
  · rw [he, List.length_flatten, List.map_map]
    rfl
  · intro f proc p hft hp
    simp only [fileDiscrepancies, hft, List.mem_map, List.mem_filter,
      decide_eq_true_eq, Discrepancy.mk.injEq]
    constructor
    · rintro ⟨q, ⟨_, hq⟩, rfl, -⟩
      exact hq
    · intro hd
      exact ⟨p, ⟨hp, hd⟩, rfl, trivial⟩

/-- Witness for C2: on the one-row file fileC2 the aggregate equals the
flattened per-file sets, and the annotated good row, whose delta is 0.80,
is in the discrepancy set exactly because its delta is non-zero. -/
theorem claim_C2_witness :
    run_results default_rates [] [fileC2] =
      ([fileC2].map (fileDiscrepancies default_rates)).flatten ∧
    (Discrepancy.mk procGood "c2" ∈ fileDiscrepancies default_rates fileC2 ↔
      procGood.delta ≠ 0) := by
  have h := claim_C2 default_rates [fileC2]
  exact ⟨h.1, h.2.2 fileC2 [procGood] procGood rfl (by simp)⟩

/-- Counterexample to C3: fileC3 holds a good purchase row (which alone
would be a discrepancy, its delta being 0.80) and one row whose amount
cell cannot be normalized; processing the file returns the accumulator
unchanged and writes nothing, so the bad cell did not affect only its own
row — it caused the whole file to be skipped. -/
theorem claim_C3_counterexample :
    process_file default_rates [] fileC3 = ([], none) ∧
    convert_amount rowBad.AMOUNT = none ∧
    procGood.delta ≠ 0 := by
  refine ⟨rfl, rfl, ?_⟩
  rw [procGood_eval]
  norm_num

/-- C3 as amended: a cell that cannot be normalized to a number aborts
the whole file at the column-conversion step — the file contributes no
discrepancies and no annotated output — while the remaining files of the
run are processed exactly as if the bad file were absent. -/
theorem claim_C3_amended (commission_rates : RateTable)
    (results : List Discrepancy) (f : InputFile) (rows : List RawRow)
    (h1 : f.content = some rows) (h2 : convertRows rows = none) :
    process_file commission_rates results f = (results, none) ∧
    ∀ rest, run_results commission_rates results (f :: rest) =
      run_results commission_rates results rest := by
  have hp := process_file_convFail commission_rates results f rows h1 h2
  refine ⟨hp, fun rest => ?_⟩
  show run_results commission_rates
    ((process_file commission_rates results f).1) rest = _
  rw [hp]

/-- Witness for the amended C3, at the concrete file fileC3. -/
theorem claim_C3_amended_witness :
    process_file default_rates [] fileC3 = ([], none) ∧
    run_results default_rates [] [fileC3] = run_results default_rates [] [] := by
  have h := claim_C3_amended default_rates [] fileC3 [rowGood, rowBad] rfl rfl
  exact ⟨h.1, h.2 []⟩

/-- Counterexample to C4: fileC4 fails while writing its annotated
output (no annotated table is produced), yet process_file does not return
the accumulated collection unchanged — the file contributes its
discrepancy row to the aggregate. -/
theorem claim_C4_counterexample :
    (process_file default_rates [] fileC4).2 = none ∧
    (process_file default_rates [] fileC4).1 =
      [Discrepancy.mk procGood "c4"] ∧
    (process_file default_rates [] fileC4).1 ≠ [] := by
  have hd : procGood.delta ≠ 0 := by
    rw [procGood_eval]; norm_num
  have hfd : fileDiscrepancies default_rates fileC4 =
      [Discrepancy.mk procGood "c4"] := by
    have hft : fileTable default_rates fileC4 = some [procGood] := rfl
    unfold fileDiscrepancies
    rw [hft]
    simp [List.filter, hd, fileC4]
  have hp := process_file_writeFail default_rates [] fileC4 rfl
  rw [hp, hfd]
  exact ⟨rfl, rfl, by simp⟩

/-- C4 as amended: a failure while reading, while validating the schema,
or while converting the numeric columns leaves the accumulated collection
unchanged; but the annotated-output write runs after the discrepancies
were appended, so a file failing only at that write still contributes its
discrepancy rows (only its annotated output is missing). -/
theorem claim_C4_amended (commission_rates : RateTable)
    (results : List Discrepancy) (f : InputFile) :
    (f.content = none → process_file commission_rates results f = (results, none)) ∧
    (∀ rows, f.content = some rows → missing_columns f ≠ [] →
      process_file commission_rates results f = (results, none)) ∧
    (∀ rows, f.content = some rows → convertRows rows = none →
      process_file commission_rates results f = (results, none)) ∧
    (f.writeOk = false →
      process_file commission_rates results f =
        (results ++ fileDiscrepancies commission_rates f, none)) :=
  ⟨process_file_readFail commission_rates results f,
    fun rows h1 h2 => process_file_schemaFail commission_rates results f rows h1 h2,
    fun rows h1 h2 => process_file_convFail commission_rates results f rows h1 h2,
    process_file_writeFail commission_rates results f⟩

/-- Witness for the amended C4: all four failure modes at concrete
files — unreadable, missing columns, unparseable cell, failing write. -/
theorem claim_C4_amended_witness :
    process_file default_rates [] fileNoRead = ([], none) ∧
    process_file default_rates [] fileNoCols = ([], none) ∧
    process_file default_rates [] fileC3 = ([], none) ∧
    process_file default_rates [] fileC4 =
      ([] ++ fileDiscrepancies default_rates fileC4, none) :=
  ⟨(claim_C4_amended default_rates [] fileNoRead).1 rfl,
    (claim_C4_amended default_rates [] fileNoCols).2.1 [] rfl (by decide),
    (claim_C4_amended default_rates [] fileC3).2.2.1 [rowGood, rowBad] rfl rfl,
    (claim_C4_amended default_rates [] fileC4).2.2.2 rfl⟩

/-- C5: the rate loader is a total function (so it never raises), and for
a missing resource, an empty resource, or a resource with any row whose
rate cell the float constructor rejects, the whole load is discarded and
the built-in table returned in its place. -/
theorem claim_C5 (rows : List (CellValue × CellValue)) :
    load_commission_rates .missing = default_rates ∧
    load_commission_rates (.present []) = default_rates ∧
    ((∃ p ∈ rows, pyFloat p.2 = none) →
      load_commission_rates (.present rows) = default_rates) := by
  refine ⟨rfl, rfl, fun h => ?_⟩
  cases he : rows.isEmpty <;>
    simp [load_commission_rates, he, buildRates_failure rows [] h]

/-- Witness for C5: a one-row resource whose rate cell is not a number
loads as the built-in table. -/
theorem claim_C5_witness :
    load_commission_rates (.present [(.str "MIR", .str "abc")]) =
      default_rates :=
  (claim_C5 [(.str "MIR", .str "abc")]).2.2
    ⟨(.str "MIR", .str "abc"), by simp, rfl⟩

/-- C6: every loaded table has a DEFAULT entry, rate lookup on it returns
a value for every code, and a code absent from the table resolves to the
DEFAULT rate. -/
theorem claim_C6 (setup : SetupFile) (code : String) :
    ∃ d, (load_commission_rates setup).lookup "DEFAULT" = some d ∧
      (rates_get (load_commission_rates setup) code).isSome = true ∧
      ((load_commission_rates setup).lookup code = none →
        rates_get (load_commission_rates setup) code = some d) := by
  obtain ⟨d, hd⟩ := load_lookup_DEFAULT setup
  refine ⟨d, hd, ?_, fun hc => ?_⟩
  · simp [rates_get, hd]
  · simp [rates_get, hd, hc]

/-- Witness for C6: the unknown code JCB of scenario C resolves against
the built-in table to the DEFAULT rate 0. -/
theorem claim_C6_witness :
    rates_get (load_commission_rates .missing) "JCB" = some 0 := by
  obtain ⟨d, hd, -, h3⟩ := claim_C6 .missing "JCB"
  have e : (0 : ℚ) = d := Option.some.inj ((show
    (load_commission_rates .missing).lookup "DEFAULT" = some (0 : ℚ)
    from rfl).symm.trans hd)
  rw [h3 rfl, ← e]

/-- C7: a run over no input files produces no annotated outputs and no
aggregate report; a run finding zero discrepancies writes no report; and
whenever a report is written it has at least one row, so the no-report
outcome is distinguishable from a zero-row report. -/
theorem claim_C7 (setup : SetupFile) (files : List InputFile) :
    (files = [] → main_run setup files = ⟨none, []⟩) ∧
    (run_results (load_commission_rates setup) [] files = [] →
      (main_run setup files).report = none) ∧
    (∀ l, (main_run setup files).report = some l → l ≠ []) := by
  refine ⟨fun h => by rw [h]; rfl, ?_, ?_⟩
  · intro hr
    unfold main_run
    cases hf : files.isEmpty
    · have h1 : (files.foldl (mainStep (load_commission_rates setup))
          ([], [])).1 = [] := by
        rw [mainStep_fst]
        exact hr
      simp [hf, h1]
    · simp [hf]
  · intro l hl
    unfold main_run at hl
    cases hf : files.isEmpty <;> rw [hf] at hl
    · simp only [Bool.false_eq_true, if_false] at hl
      rcases hr : (files.foldl (mainStep (load_commission_rates setup))
          ([], [])).1 with _ | ⟨a, t⟩ <;> rw [hr] at hl
      · simp at hl
      · simp only [List.isEmpty_cons, if_false] at hl
        injection hl with hl1
        rw [← hl1]
        simp
    · simp at hl

/-- Witness for C7: a run over an empty file list. -/
theorem claim_C7_witness :
    main_run .missing [] = ⟨none, []⟩ :=
  (claim_C7 .missing []).1 rfl

/-- C8: convert_amount strips spaces and turns commas into points before
parsing (so the text 1 234,56 normalises to 1234.56), passes numeric
input through unchanged, and signals failure — rather than producing a
value — on text whose cleaned form is not a number. -/
theorem claim_C8 :
    convert_amount (.str "1 234,56") = some (1234.56 : ℚ) ∧
    (∀ q : ℚ, convert_amount (.num q) = some q) ∧
    (∀ s : String, convert_amount (.str s) = parseFloat (cleanAmountStr s)) ∧
    convert_amount (.str "abc") = none := by
  refine ⟨?_, fun q => rfl, fun s => rfl, rfl⟩
  simp [convert_amount, cleanAmountStr, parseFloat, parseUnsigned, trimChars,
    dropWS, digitsVal]
  norm_num

/-- C9: amount normalisation is idempotent on already-clean numeric
values: whenever convert_amount succeeds with value q, feeding the
numeric result back in returns the same value. -/
theorem claim_C9 (v : CellValue) (q : ℚ) (_h : convert_amount v = some q) :
    convert_amount (.num q) = some q := rfl

/-- Witness for C9, at the text 1,5 whose normalised value is 1.5. -/
theorem claim_C9_witness :
    convert_amount (.num (15 / 10)) = some (15 / 10) := by
  apply claim_C9 (.str "1,5")
  simp [convert_amount, cleanAmountStr, parseFloat, parseUnsigned, trimChars,
    dropWS, digitsVal]
  norm_num

/-- C10: the purchase test is exact string equality — any TYPE text other
than the marker, including case or whitespace variants of it, yields
computed fee 0 and delta 0 and the row is never kept by the discrepancy
filter — while the card-network code, by contrast, is trimmed and
uppercased before the rate lookup, so the codes MIR and mir-in-spaces
give identical annotations. -/
theorem claim_C10 (commission_rates : RateTable) (r : ConvRow) (s : String)
    (h1 : r.TYPE = .str s) (h2 : s ≠ "ПОКУПКА") :
    (annotateRow commission_rates r).fee = 0 ∧
    (annotateRow commission_rates r).delta = 0 ∧
    (∀ l : List ProcRow,
      annotateRow commission_rates r ∉
        l.filter (fun p => decide (p.delta ≠ 0))) ∧
    (∀ t a c, (annotateRow commission_rates ⟨t, a, c, .str " mir "⟩).fee =
        (annotateRow commission_rates ⟨t, a, c, .str "MIR"⟩).fee ∧
      (annotateRow commission_rates ⟨t, a, c, .str " mir "⟩).delta =
        (annotateRow commission_rates ⟨t, a, c, .str "MIR"⟩).delta) := by
  have hne : r.TYPE ≠ purchaseMarker := by
    rw [h1]
    intro hcon
    exact h2 (CellValue.str.inj hcon)
  have ha := annotateRow_not_purchase commission_rates r hne
  refine ⟨by rw [ha], by rw [ha], ?_, ?_⟩
  · intro l hmem
    have hpred := (List.mem_filter.1 hmem).2
    rw [ha] at hpred
    simp at hpred
  · intro t a c
    have e : normCode (.str " mir ") = normCode (.str "MIR") := by decide
    constructor <;> (simp only [annotateRow, calculate_commission]; rw [e])

/-- Witness for C10: a row typed with the lowercase word for purchase is
treated as a non-purchase row. -/
theorem claim_C10_witness :
    (annotateRow default_rates ⟨.str "покупка", 1000, 15, .str "MIR"⟩).fee
      = 0 ∧
    (annotateRow default_rates ⟨.str "покупка", 1000, 15, .str "MIR"⟩).delta
      = 0 := by
  have h := claim_C10 default_rates ⟨.str "покупка", 1000, 15, .str "MIR"⟩
    "покупка" rfl (by decide)
  exact ⟨h.1, h.2.1⟩

example : pyUpper (pyStrip " mir ") = "MIR" := by decide
example : ("покупка" : String) ≠ "ПОКУПКА" := by decide
example : convert_amount (.str "1 234,56") = some (1234 + (56 : ℚ) / 100) := by
  simp [convert_amount, cleanAmountStr, parseFloat, parseUnsigned, trimChars,
        dropWS, digitsVal]
  norm_num
example : convert_amount (.str "abc") = none := by decide
example : round2 (1000 * (142 / 10000)) = 142 / 10 := by norm_num [round2]
